import Mathlib

/-!
Verification of the sensitivity-based input-categorization engine of
`categorize_input_pairs.py` (repository `input-categorization`).

The script is embedded shallowly over exact rational arithmetic:
  * configuration constants (`focus_commodity`, `year_ranges`, `test_values`,
    `rmse_divisor`, the classification markers) are taken verbatim from the
    configuration section of the script;
  * the wide merged table built from `input_quantity_changes.csv` and
    `output_quantity_changes.csv` is a list of observations, one per
    (year, industry) row, with a total valuation of the commodity columns;
  * the XGBoost regressor and the cross-validated fold scoring are opaque
    (they call into native libraries), so they enter as function parameters;
    everything the script computes around them — data extraction, skip
    conditions, feature adjustment, the hyperparameter grid, best-score
    selection, the perturbation grid, the least-squares slope, and the
    final categorization masks — is embedded and verified.
-/

/-- The focus commodity, `focus_commodity = "324"` in the script. -/
def focus_commodity : String := "324"

/-- The year ranges, `year_ranges = [range(1964, 2017)]`: a single inclusive
1964–2016 range, kept as (first year, last year). -/
def year_ranges : List (Int × Int) := [(1964, 2016)]

/-- Rounding half to even on rationals, the rounding rule of `numpy.round`. -/
def roundHalfEven (q : ℚ) : ℤ :=
  if Int.fract q = 1/2 then (if ⌊q⌋ % 2 = 0 then ⌊q⌋ else ⌊q⌋ + 1) else round q

/-- `numpy.round(x, 2)`: round to two decimal places. -/
def round2 (q : ℚ) : ℚ := (roundHalfEven (q * 100) : ℚ) / 100

/-- The perturbation grid, `test_values = linspace(-0.5, 0.5, 51)`:
51 evenly spaced rationals from −1/2 to 1/2, step 1/50. -/
def test_values : List ℚ := (List.range 51).map (fun k : ℕ => -1/2 + (k : ℚ) / 50)

/-- The classification threshold divisor, `rmse_divisor = 4`. -/
def rmse_divisor : ℚ := 4

/-- The marker written for a complement pair, `complements_value = 'C'`. -/
def complements_value : String := "C"

/-- The marker written for a substitute pair, `substitutes_value = 'S'`. -/
def substitutes_value : String := "S"

/-- A cell of the categorization table: either one of the string markers
written by the masked assignments, or the untouched numeric value copied
from the coefficient table. -/
inductive Cell where
  | label : String → Cell
  | num : ℚ → Cell
  deriving DecidableEq

/-- The categorization of one coefficient cell holding slope `c` in a row
with root-mean-square error `r`.  The script applies three masked
assignments in order to a copy of the coefficient table: first `'C'` where
`c >= r / rmse_divisor`, then `'S'` where `c <= -r / rmse_divisor`, then
`''` where `|c| < r / rmse_divisor`; a later assignment overwrites an
earlier one. -/
def categorizeCell (c r : ℚ) : Cell :=
  let s1 := if r / rmse_divisor ≤ c then Cell.label complements_value else Cell.num c
  let s2 := if c ≤ -r / rmse_divisor then Cell.label substitutes_value else s1
  if |c| < r / rmse_divisor then Cell.label "" else s2

/-! ### Hyperparameter grid and cross-validated model selection -/

/-- One XGBoost hyperparameter configuration, the fields of the
`parameters` dictionary of the script. -/
structure XGBParams where
  n_estimators : ℕ
  max_depth : ℕ
  eta : ℚ
  gamma : ℚ
  colsample_bytree : ℚ
  min_child_weight : ℚ
  subsample : ℚ
  deriving DecidableEq

/-- Python `range(start, stop, step)` for a positive step. -/
def pyRange (start stop step : ℕ) : List ℕ :=
  (List.range ((stop - start + step - 1) / step)).map (fun i => start + step * i)

/-- The hyperparameter grid of the script: `n_estimators` sweeping
`range(50, 1550, 50)` with every other field a single value
(`max_depth` 2, `eta` 0.01, `gamma` 0, `colsample_bytree` 1,
`min_child_weight` 1, `subsample` 1). -/
def parameters : List XGBParams :=
  (pyRange 50 1550 50).map (fun n => ⟨n, 2, 1/100, 0, 1, 1, 1⟩)

/-- `RepeatedKFold(n_splits=4, ...)`. -/
def n_splits : ℕ := 4

/-- `RepeatedKFold(..., n_repeats=2)`. -/
def n_repeats : ℕ := 2

/-- The number of scored validation folds per configuration: 4 splits
repeated twice. -/
def numFolds : ℕ := n_splits * n_repeats

/-- The mean test score a `GridSearchCV` assigns to one configuration from
its per-fold scores. -/
def meanTestScore (s : Fin numFolds → ℚ) : ℚ := (∑ i, s i) / (numFolds : ℚ)

/-- Scan of the candidate list keeping the configuration with the highest
score; on ties the earlier candidate is kept, as `GridSearchCV` does. -/
def selectBestFrom (score : XGBParams → ℚ) : XGBParams → List XGBParams → XGBParams
  | best, [] => best
  | best, p :: ps => selectBestFrom score (if score best < score p then p else best) ps

/-- The first candidate of the grid, `n_estimators = 50`. -/
def firstCandidate : XGBParams := ⟨50, 2, 1/100, 0, 1, 1, 1⟩

/-- The best-scoring configuration of the whole grid. -/
def selectBest (score : XGBParams → ℚ) : XGBParams :=
  selectBestFrom score firstCandidate parameters

/-- The outcome of `grid_search.fit`: the chosen configuration and its mean
cross-validated score (`best_params_` and `best_score_`). -/
structure GridSearchResult where
  best_params : XGBParams
  best_score : ℚ

/-- `GridSearchCV` over the script grid, given the per-fold
`neg_root_mean_squared_error` scores of every configuration. -/
def gridSearchCV (negScore : XGBParams → Fin numFolds → ℚ) : GridSearchResult :=
  ⟨selectBest (fun p => meanTestScore (negScore p)),
   meanTestScore (negScore (selectBest (fun p => meanTestScore (negScore p))))⟩

/-- The cross-validated root-mean-square error of a configuration: the mean
of its per-fold errors. -/
def cvRmse (foldRmse : XGBParams → Fin numFolds → ℚ) (p : XGBParams) : ℚ :=
  (∑ i, foldRmse p i) / (numFolds : ℚ)

/-! ### Sensitivity analysis: perturbation grid and least-squares slope -/

/-- The feature vector used to query the trained model: zero everywhere
except the commodity under test, which carries the perturbation value. -/
def subTest (test_commodity : String) (v : ℚ) : String → ℚ :=
  fun c => if c = test_commodity then v else 0

/-- The (perturbation, prediction) pairs the script collects for one test
commodity: for each grid value, the rounded value together with the model
prediction at the correspondingly perturbed all-zero feature vector. -/
def predictionPairs (model : (String → ℚ) → ℚ) (test_commodity : String) :
    List (ℚ × ℚ) :=
  test_values.map (fun t => (round2 t, model (subTest test_commodity (round2 t))))

/-- Sum of the first components of a list of pairs. -/
def sumX (l : List (ℚ × ℚ)) : ℚ := (l.map Prod.fst).sum

/-- Sum of the second components of a list of pairs. -/
def sumY (l : List (ℚ × ℚ)) : ℚ := (l.map Prod.snd).sum

/-- Sum of the products of the components of a list of pairs. -/
def sumXY (l : List (ℚ × ℚ)) : ℚ := (l.map (fun pr => pr.1 * pr.2)).sum

/-- Sum of the squared first components of a list of pairs. -/
def sumXX (l : List (ℚ × ℚ)) : ℚ := (l.map (fun pr => pr.1 * pr.1)).sum

/-- The slope of the simple linear regression of the second component on the
first, with intercept — the coefficient `sklearn.LinearRegression` returns. -/
def olsSlope (l : List (ℚ × ℚ)) : ℚ :=
  ((l.length : ℚ) * sumXY l - sumX l * sumY l) /
    ((l.length : ℚ) * sumXX l - sumX l * sumX l)

/-- The intercept of the same regression. -/
def olsIntercept (l : List (ℚ × ℚ)) : ℚ :=
  (sumY l - olsSlope l * sumX l) / (l.length : ℚ)

/-- Sum of squared residuals of the affine predictor `a + b * x` over the
data pairs. -/
def sse (l : List (ℚ × ℚ)) (a b : ℚ) : ℚ :=
  (l.map (fun pr => (pr.2 - (a + b * pr.1))^2)).sum

/-- Specification-side reading of an ordinary-least-squares fit with
intercept: `(a, b)` minimizes the sum of squared residuals over all affine
predictors. -/
def IsOLSFit (l : List (ℚ × ℚ)) (a b : ℚ) : Prop :=
  ∀ a' b', sse l a b ≤ sse l a' b'

/-- The sensitivity coefficient the script stores for one test commodity:
the regression slope of the model predictions on the perturbation grid. -/
def sensitivityCoefficient (model : (String → ℚ) → ℚ) (test_commodity : String) : ℚ :=
  olsSlope (predictionPairs model test_commodity)

/-! ### The per-(industry, year-range) pipeline -/

/-- One row of the wide merged table: a (year, industry) observation with a
valuation of every commodity column, `quantity_change` included. -/
structure Obs where
  year : Int
  industry : String
  val : String → ℚ

/-- The rows of the table belonging to one industry and one inclusive year
range (`data_extract` in the script). -/
def data_extract (input_changes : List Obs) (current_industry : String)
    (y0 y1 : Int) : List Obs :=
  input_changes.filter (fun r =>
    r.industry == current_industry && decide (y0 ≤ r.year) && decide (r.year ≤ y1))

/-- Whether a commodity column carries the missing-usage sentinel −1 in some
row of the extract. -/
def hasNegOne (extract : List Obs) (c : String) : Bool :=
  extract.any (fun r => decide (r.val c = -1))

/-- The usable predictor columns (`cols_for_prediction`): the commodity
columns with no −1 anywhere in the extract, with the focus commodity then
removed. -/
def cols_for_prediction (cl : List String) (extract : List Obs) : List String :=
  (cl.filter (fun c => !(hasNegOne extract c))).filter (fun c => c != focus_commodity)

/-- The output adjustment building `data_train`: every commodity column of
the row except `quantity_change` has the row's `quantity_change` subtracted;
`quantity_change` itself stays raw. -/
def adjustRow (cl : List String) (r : Obs) : Obs :=
  ⟨r.year, r.industry, fun c =>
    if c ∈ cl ∧ c ≠ "quantity_change" then r.val c - r.val "quantity_change"
    else r.val c⟩

/-- The training table (`data_train`): the extract with every row
output-adjusted. -/
def data_train (cl : List String) (extract : List Obs) : List Obs :=
  extract.map (adjustRow cl)

/-- One emitted row of the coefficient-results table: industry, year-range
label, cross-validated error, and a value for every column (the script
initializes the row with zeros, so each commodity cell holds a number). -/
structure ResultRow where
  industry : String
  year : String
  rmse : ℚ
  cell : String → Option ℚ

/-- The year-range label stored in the `year` column, `"Y1:Y2"`. -/
def yearLabel (y0 y1 : Int) : String := toString y0 ++ ":" ++ toString y1

/-- The body of the per-(industry, year-range) loop.  The CV scorer and the
model fitting are opaque: `cvNegRmse` yields the per-fold
`neg_root_mean_squared_error` scores of each configuration on the training
table, and `fit` yields the prediction function of a configuration refit on
the training table.  Skips (returns no row) when the industry has no rows in
the range or the focus commodity carries the sentinel in some row; otherwise
emits the row with the negated best score as `rmse`, a regression slope for
every usable predictor, and the initialization value 0 in every other
commodity cell. -/
def processPair
    (cvNegRmse : List Obs → List String → XGBParams → Fin numFolds → ℚ)
    (fit : XGBParams → List Obs → List String → (String → ℚ) → ℚ)
    (cl : List String) (input_changes : List Obs)
    (current_industry : String) (y0 y1 : Int) : Option ResultRow :=
  let extract := data_extract input_changes current_industry y0 y1
  if extract.isEmpty then none
  else if extract.any (fun r => decide (r.val focus_commodity = -1)) then none
  else
    let dtrain := data_train cl extract
    let cols := cols_for_prediction cl extract
    let gs := gridSearchCV (cvNegRmse dtrain cols)
    let model := fit gs.best_params dtrain cols
    some ⟨current_industry, yearLabel y0 y1, -gs.best_score,
          fun c => if c ∈ cols then some (sensitivityCoefficient model c) else some 0⟩

/-- The industries the script iterates: every commodity column except
`Other`, `Used` and `quantity_change`. -/
def industries (cl : List String) : List String :=
  cl.filter (fun x => x != "Other" && x != "Used" && x != "quantity_change")

/-- The coefficient-results table: the loop over industries (skipping the
focus commodity before any year-range work) and year ranges, keeping the
rows of the non-skipped pairs in order. -/
def coefficient_results
    (cvNegRmse : List Obs → List String → XGBParams → Fin numFolds → ℚ)
    (fit : XGBParams → List Obs → List String → (String → ℚ) → ℚ)
    (cl : List String) (input_changes : List Obs) : List ResultRow :=
  ((industries cl).filter (fun i => i != focus_commodity)).flatMap
    (fun ind => year_ranges.filterMap
      (fun yr => processPair cvNegRmse fit cl input_changes ind yr.1 yr.2))

/-- One row of the categorization table. -/
structure CatRow where
  industry : String
  year : String
  rmse : ℚ
  cell : String → Option Cell

/-- The categorization of one coefficient row: every commodity column is
rewritten through the three masks against the row's `rmse`; the key columns
are copied unchanged. -/
def categorizeRow (cl : List String) (r : ResultRow) : CatRow :=
  ⟨r.industry, r.year, r.rmse, fun c =>
    if c ∈ cl then (r.cell c).map (fun v => categorizeCell v r.rmse)
    else (r.cell c).map Cell.num⟩

/-- The categorization-results table: the coefficient table with every
commodity cell classified. -/
def categorization_results
    (cvNegRmse : List Obs → List String → XGBParams → Fin numFolds → ℚ)
    (fit : XGBParams → List Obs → List String → (String → ℚ) → ℚ)
    (cl : List String) (input_changes : List Obs) : List CatRow :=
  (coefficient_results cvNegRmse fit cl input_changes).map (categorizeRow cl)

/-- Bool-valued "every emitted row satisfies" over an optional row. -/
def optionAll {α : Type} (p : α → Bool) : Option α → Bool
  | none => true
  | some a => p a

/-! ### Concrete instances used by the witnesses -/

/-- A three-column commodity list for concrete runs. -/
def sampleCl : List String := ["324", "325", "quantity_change"]

/-- A one-row table where industry `325` uses everything (no sentinel). -/
def sampleData : List Obs := [⟨1964, "325", fun _ => 0⟩]

/-- A one-row table where industry `325` does not use the focus commodity
(sentinel −1 in the focus column). -/
def sentinelData : List Obs := [⟨1964, "325", fun c => if c = "324" then -1 else 0⟩]

/-- A concrete CV scorer: every fold of every configuration scores −1. -/
def constNegScorer : List Obs → List String → XGBParams → Fin numFolds → ℚ :=
  fun _ _ _ _ => -1

/-- A concrete fitted model: the constant-zero predictor. -/
def constFit : XGBParams → List Obs → List String → (String → ℚ) → ℚ :=
  fun _ _ _ _ => 0

/-! ### Lemmas and claim theorems -/

lemma categorizeCell_of_substitute (c r : ℚ) (h : c ≤ -r / rmse_divisor) (hr : 0 ≤ r) :
    categorizeCell c r = Cell.label substitutes_value := by
  have h4 : (0:ℚ) < 4 := by norm_num
  have hrd : -r / rmse_divisor ≤ 0 := by
    rw [rmse_divisor]; exact div_nonpos_of_nonpos_of_nonneg (by linarith) (by norm_num)
  have habs : ¬ |c| < r / rmse_divisor := by
    intro hlt
    have h1 : -(r / rmse_divisor) < c := (abs_lt.mp hlt).1
    rw [neg_div] at h
    linarith
  simp only [categorizeCell]
  rw [if_neg habs, if_pos h]

lemma categorizeCell_of_complement (c r : ℚ) (h : r / rmse_divisor ≤ c)
    (hns : ¬ c ≤ -r / rmse_divisor) :
    categorizeCell c r = Cell.label complements_value := by
  have habs : ¬ |c| < r / rmse_divisor := by
    intro hlt
    exact absurd h (not_le.mpr (abs_lt.mp hlt).2)
  simp only [categorizeCell]
  rw [if_neg habs, if_neg hns, if_pos h]

lemma categorizeCell_of_neutral (c r : ℚ) (hc : ¬ r / rmse_divisor ≤ c)
    (hns : ¬ c ≤ -r / rmse_divisor) :
    categorizeCell c r = Cell.label "" := by
  have habs : |c| < r / rmse_divisor := by
    rw [abs_lt]
    constructor
    · rw [neg_div] at hns; linarith [not_le.mp hns]
    · exact not_le.mp hc
  simp only [categorizeCell]
  rw [if_pos habs]

/-- With a nonnegative error the categorization always produces one of the
three markers (the untouched-number case cannot occur). -/
lemma categorizeCell_mem_of_nonneg (c r : ℚ) (hr : 0 ≤ r) :
    categorizeCell c r = Cell.label complements_value ∨
    categorizeCell c r = Cell.label substitutes_value ∨
    categorizeCell c r = Cell.label "" := by
  by_cases hs : c ≤ -r / rmse_divisor
  · exact Or.inr (Or.inl (categorizeCell_of_substitute c r hs hr))
  · by_cases hc : r / rmse_divisor ≤ c
    · exact Or.inl (categorizeCell_of_complement c r hc hs)
    · exact Or.inr (Or.inr (categorizeCell_of_neutral c r hc hs))

lemma complements_ne_substitutes : complements_value ≠ substitutes_value := by decide

/-- C1 counterexample: the claim asserts the cell equals `'C'` exactly when
`c ≥ r / d`; at the concrete emitted values `r = 0` and `c = 0` the
inequality `c ≥ r / d` holds, yet the later substitute assignment overwrites
the complement marker and the cell is `'S'`, so the biconditional is false. -/
theorem categorize_claim_C1_counterexample :
    ¬ ((categorizeCell 0 0 = Cell.label complements_value) ↔
        ((0:ℚ) / rmse_divisor ≤ 0)) := by
  intro h
  have hS : categorizeCell 0 0 = Cell.label substitutes_value := by
    simp [categorizeCell, rmse_divisor, complements_value, substitutes_value]
  have hC : categorizeCell 0 0 = Cell.label complements_value := h.mpr (by norm_num)
  rw [hS] at hC
  exact complements_ne_substitutes (Cell.label.inj hC).symm

/-- C1 (amended): for every coefficient `c` and nonnegative error `r` with
divisor `d = 4`, the cell is `'S'` exactly when `c ≤ −r/d`, it is `'C'`
exactly when `c ≥ r/d` and not `c ≤ −r/d` (the substitute assignment runs
last and wins the overlap at `c = r/d = −r/d = 0`), it is `''` exactly when
neither inequality holds, and every `c` receives exactly one of the three
markers. -/
theorem categorize_partition (c r : ℚ) (hr : 0 ≤ r) :
    ((categorizeCell c r = Cell.label complements_value) ↔
        (r / rmse_divisor ≤ c ∧ ¬ c ≤ -r / rmse_divisor)) ∧
    ((categorizeCell c r = Cell.label substitutes_value) ↔ c ≤ -r / rmse_divisor) ∧
    ((categorizeCell c r = Cell.label "") ↔
        (¬ r / rmse_divisor ≤ c ∧ ¬ c ≤ -r / rmse_divisor)) ∧
    (categorizeCell c r = Cell.label complements_value ∨
     categorizeCell c r = Cell.label substitutes_value ∨
     categorizeCell c r = Cell.label "") := by
  have hCS : complements_value ≠ substitutes_value := complements_ne_substitutes
  have hCE : complements_value ≠ "" := by decide
  have hSE : substitutes_value ≠ "" := by decide
  refine ⟨?_, ?_, ?_, categorizeCell_mem_of_nonneg c r hr⟩
  · constructor
    · intro h
      by_cases hs : c ≤ -r / rmse_divisor
      · rw [categorizeCell_of_substitute c r hs hr] at h
        exact absurd (Cell.label.inj h) hCS.symm
      · by_cases hc : r / rmse_divisor ≤ c
        · exact ⟨hc, hs⟩
        · rw [categorizeCell_of_neutral c r hc hs] at h
          exact absurd (Cell.label.inj h) hCE.symm
    · intro ⟨hc, hs⟩
      exact categorizeCell_of_complement c r hc hs
  · constructor
    · intro h
      by_cases hs : c ≤ -r / rmse_divisor
      · exact hs
      · by_cases hc : r / rmse_divisor ≤ c
        · rw [categorizeCell_of_complement c r hc hs] at h
          exact absurd (Cell.label.inj h) hCS
        · rw [categorizeCell_of_neutral c r hc hs] at h
          exact absurd (Cell.label.inj h) hSE.symm
    · intro hs
      exact categorizeCell_of_substitute c r hs hr
  · constructor
    · intro h
      by_cases hs : c ≤ -r / rmse_divisor
      · rw [categorizeCell_of_substitute c r hs hr] at h
        exact absurd (Cell.label.inj h) hSE
      · by_cases hc : r / rmse_divisor ≤ c
        · rw [categorizeCell_of_complement c r hc hs] at h
          exact absurd (Cell.label.inj h) hCE
        · exact ⟨hc, hs⟩
    · intro ⟨hc, hs⟩
      exact categorizeCell_of_neutral c r hc hs

/-- Witness for the amended C1 at `c = 1`, `r = 4`: the error is nonnegative
and the cell carries the complement marker. -/
theorem categorize_partition_witness :
    (0:ℚ) ≤ 4 ∧ categorizeCell 1 4 = Cell.label complements_value := by
  refine ⟨by norm_num, ?_⟩
  exact (categorize_partition 1 4 (by norm_num)).1.mpr
    (by constructor <;> norm_num [rmse_divisor])

/-- C6: when a row's root-mean-square error is exactly 0, every nonzero
coefficient is classified by its sign alone: positive gives `'C'`,
negative gives `'S'`. -/
theorem categorize_rmse_zero_sign (c : ℚ) :
    (0 < c → categorizeCell c 0 = Cell.label complements_value) ∧
    (c < 0 → categorizeCell c 0 = Cell.label substitutes_value) := by
  constructor
  · intro hc
    apply categorizeCell_of_complement
    · rw [rmse_divisor]; norm_num; linarith
    · rw [rmse_divisor]; norm_num; linarith
  · intro hc
    apply categorizeCell_of_substitute
    · rw [rmse_divisor]; norm_num; linarith
    · exact le_refl 0

/-- Witness for C6 at `c = 1` and `c = −1` with zero error. -/
theorem categorize_rmse_zero_sign_witness :
    categorizeCell 1 0 = Cell.label complements_value ∧
    categorizeCell (-1) 0 = Cell.label substitutes_value :=
  ⟨(categorize_rmse_zero_sign 1).1 (by norm_num),
   (categorize_rmse_zero_sign (-1)).2 (by norm_num)⟩

lemma selectBestFrom_mem (score : XGBParams → ℚ) :
    ∀ (l : List XGBParams) (best : XGBParams),
      selectBestFrom score best l = best ∨ selectBestFrom score best l ∈ l := by
  intro l
  induction l with
  | nil => intro best; left; rfl
  | cons p ps ih =>
    intro best
    rw [selectBestFrom]
    rcases ih (if score best < score p then p else best) with h | h
    · rw [h]
      split_ifs with hc
      · right; exact List.mem_cons_self p ps
      · left; rfl
    · right; exact List.mem_cons_of_mem p h

lemma selectBestFrom_le (score : XGBParams → ℚ) :
    ∀ (l : List XGBParams) (best : XGBParams),
      score best ≤ score (selectBestFrom score best l) ∧
      ∀ p ∈ l, score p ≤ score (selectBestFrom score best l) := by
  intro l
  induction l with
  | nil =>
    intro best
    refine ⟨le_refl _, ?_⟩
    intro p hp
    cases hp
  | cons p ps ih =>
    intro best
    rw [selectBestFrom]
    obtain ⟨h1, h2⟩ := ih (if score best < score p then p else best)
    constructor
    · refine le_trans ?_ h1
      split_ifs with hc
      · exact le_of_lt hc
      · exact le_refl _
    · intro q hq
      rcases List.mem_cons.mp hq with rfl | hq
      · refine le_trans ?_ h1
        split_ifs with hc
        · exact le_refl _
        · exact not_lt.mp hc
      · exact h2 q hq

lemma firstCandidate_mem : firstCandidate ∈ parameters := by
  have h : (50:ℕ) ∈ pyRange 50 1550 50 := by decide
  exact List.mem_map_of_mem _ h

lemma selectBest_mem (score : XGBParams → ℚ) : selectBest score ∈ parameters := by
  rcases selectBestFrom_mem score parameters firstCandidate with h | h
  · have e : selectBest score = firstCandidate := h
    rw [e]
    exact firstCandidate_mem
  · exact h

lemma selectBest_le (score : XGBParams → ℚ) :
    ∀ p ∈ parameters, score p ≤ score (selectBest score) :=
  (selectBestFrom_le score parameters firstCandidate).2

lemma meanTestScore_neg (f : Fin numFolds → ℚ) :
    meanTestScore (fun i => -(f i)) = -((∑ i, f i) / (numFolds : ℚ)) := by
  rw [meanTestScore, Finset.sum_neg_distrib, neg_div]

lemma gridSearch_best_score_nonpos (negScore : XGBParams → Fin numFolds → ℚ)
    (h : ∀ p i, negScore p i ≤ 0) : (gridSearchCV negScore).best_score ≤ 0 := by
  have e : (gridSearchCV negScore).best_score
      = meanTestScore (negScore (selectBest (fun p => meanTestScore (negScore p)))) := rfl
  rw [e, meanTestScore]
  apply div_nonpos_of_nonpos_of_nonneg
  · exact Finset.sum_nonpos (fun i _ => h _ i)
  · exact Nat.cast_nonneg numFolds

lemma processPair_some_fields
    (cvf : List Obs → List String → XGBParams → Fin numFolds → ℚ)
    (fit : XGBParams → List Obs → List String → (String → ℚ) → ℚ)
    (cl : List String) (data : List Obs) (ind : String) (y0 y1 : Int)
    (row : ResultRow) (h : processPair cvf fit cl data ind y0 y1 = some row) :
    row.industry = ind ∧ row.year = yearLabel y0 y1 ∧
    row.rmse = -(gridSearchCV (cvf (data_train cl (data_extract data ind y0 y1))
        (cols_for_prediction cl (data_extract data ind y0 y1)))).best_score ∧
    row.cell = fun c =>
      if c ∈ cols_for_prediction cl (data_extract data ind y0 y1) then
        some (sensitivityCoefficient
          (fit (gridSearchCV (cvf (data_train cl (data_extract data ind y0 y1))
              (cols_for_prediction cl (data_extract data ind y0 y1)))).best_params
            (data_train cl (data_extract data ind y0 y1))
            (cols_for_prediction cl (data_extract data ind y0 y1))) c)
      else some 0 := by
  simp only [processPair] at h
  split_ifs at h
  obtain rfl := Option.some.inj h
  exact ⟨rfl, rfl, rfl, rfl⟩

lemma processPair_skip
    (cvf : List Obs → List String → XGBParams → Fin numFolds → ℚ)
    (fit : XGBParams → List Obs → List String → (String → ℚ) → ℚ)
    (cl : List String) (data : List Obs) (ind : String) (y0 y1 : Int)
    (h : (data_extract data ind y0 y1).isEmpty = true ∨
         (data_extract data ind y0 y1).any
           (fun r => decide (r.val focus_commodity = -1)) = true) :
    processPair cvf fit cl data ind y0 y1 = none := by
  simp only [processPair]
  rcases h with h | h
  · rw [if_pos h]
  · by_cases h1 : (data_extract data ind y0 y1).isEmpty = true
    · rw [if_pos h1]
    · rw [if_neg h1, if_pos h]

/-- C4: the model trainer searches exactly the grid with boosting-round
counts 50, 100, …, 1500 and fixed depth 2, learning rate 0.01 and sampling
fractions 1; it scores a configuration by the mean root-mean-square error
over the 4-fold twice-repeated cross-validation splits, selects a
configuration of minimal cross-validated error, every emitted row stores the
negated best score — that minimal cross-validated error — in `rmse`, and the
emitted coefficients query the best configuration refit on the full training
table. -/
theorem grid_search_minimizes_cv_rmse (foldRmse : XGBParams → Fin numFolds → ℚ) :
    (gridSearchCV (fun p i => -(foldRmse p i))).best_params ∈ parameters ∧
    (∀ p ∈ parameters,
      cvRmse foldRmse (gridSearchCV (fun p i => -(foldRmse p i))).best_params ≤
        cvRmse foldRmse p) ∧
    -(gridSearchCV (fun p i => -(foldRmse p i))).best_score
      = cvRmse foldRmse (gridSearchCV (fun p i => -(foldRmse p i))).best_params ∧
    parameters.map XGBParams.n_estimators =
      [50, 100, 150, 200, 250, 300, 350, 400, 450, 500, 550, 600, 650, 700, 750,
       800, 850, 900, 950, 1000, 1050, 1100, 1150, 1200, 1250, 1300, 1350, 1400,
       1450, 1500] ∧
    (∀ p ∈ parameters,
      p.max_depth = 2 ∧ p.eta = 1/100 ∧ p.colsample_bytree = 1 ∧ p.subsample = 1) ∧
    n_splits = 4 ∧ n_repeats = 2 ∧
    (∀ cvf fit cl data ind y0 y1,
      optionAll (fun row => decide (row.rmse =
          -(gridSearchCV (cvf (data_train cl (data_extract data ind y0 y1))
              (cols_for_prediction cl (data_extract data ind y0 y1)))).best_score))
        (processPair cvf fit cl data ind y0 y1) = true) ∧
    (∀ cvf fit cl data ind y0 y1 c,
      c ∈ cols_for_prediction cl (data_extract data ind y0 y1) →
      optionAll (fun row => decide (row.cell c =
          some (sensitivityCoefficient
            (fit (gridSearchCV (cvf (data_train cl (data_extract data ind y0 y1))
                (cols_for_prediction cl (data_extract data ind y0 y1)))).best_params
              (data_train cl (data_extract data ind y0 y1))
              (cols_for_prediction cl (data_extract data ind y0 y1))) c)))
        (processPair cvf fit cl data ind y0 y1) = true) := by
  have hms : ∀ p, meanTestScore (fun i => -(foldRmse p i)) = -(cvRmse foldRmse p) := by
    intro p
    rw [meanTestScore_neg]
    rfl
  have hbp : (gridSearchCV (fun p i => -(foldRmse p i))).best_params
      = selectBest (fun p => meanTestScore (fun i => -(foldRmse p i))) := rfl
  have hbs : (gridSearchCV (fun p i => -(foldRmse p i))).best_score
      = meanTestScore (fun i =>
          -(foldRmse (selectBest (fun p => meanTestScore (fun i => -(foldRmse p i)))) i)) := rfl
  refine ⟨?_, ?_, ?_, by decide, ?_, rfl, rfl, ?_, ?_⟩
  · rw [hbp]
    exact selectBest_mem _
  · intro p hp
    have h0 := selectBest_le (fun q => meanTestScore (fun i => -(foldRmse q i))) p hp
    have h2 : meanTestScore (fun i => -(foldRmse p i))
        ≤ meanTestScore (fun i =>
            -(foldRmse (selectBest (fun q => meanTestScore (fun i => -(foldRmse q i)))) i)) := h0
    rw [hms, hms] at h2
    rw [hbp]
    linarith
  · rw [hbs, hms, hbp]
    ring
  · intro p hp
    rw [parameters] at hp
    obtain ⟨n, hn, rfl⟩ := List.mem_map.mp hp
    exact ⟨rfl, rfl, rfl, rfl⟩
  · intro cvf fit cl data ind y0 y1
    cases hp : processPair cvf fit cl data ind y0 y1 with
    | none => rfl
    | some row =>
      simp only [optionAll]
      rw [decide_eq_true_eq]
      exact (processPair_some_fields cvf fit cl data ind y0 y1 row hp).2.2.1
  · intro cvf fit cl data ind y0 y1 c hcmem
    cases hp : processPair cvf fit cl data ind y0 y1 with
    | none => rfl
    | some row =>
      simp only [optionAll]
      rw [decide_eq_true_eq]
      obtain ⟨-, -, -, hcell⟩ := processPair_some_fields cvf fit cl data ind y0 y1 row hp
      simp only [hcell]
      rw [if_pos hcmem]

/-- Witness for C4: with every fold error equal to 1, the selected
configuration's cross-validated error is at best the first candidate's. -/
theorem grid_search_minimizes_cv_rmse_witness :
    cvRmse (fun _ _ => 1)
        (gridSearchCV (fun p i => -((fun (_ : XGBParams) (_ : Fin numFolds) => (1:ℚ)) p i))).best_params
      ≤ cvRmse (fun _ _ => 1) firstCandidate :=
  (grid_search_minimizes_cv_rmse (fun _ _ => 1)).2.1 firstCandidate firstCandidate_mem

/-- C9: every emitted row stores in `rmse` the negation of the grid search's
best `neg_root_mean_squared_error` score, and — the per-fold scores of that
scorer being nonpositive — the stored value is nonnegative. -/
theorem rmse_neg_best_score_nonneg
    (cvf : List Obs → List String → XGBParams → Fin numFolds → ℚ)
    (fit : XGBParams → List Obs → List String → (String → ℚ) → ℚ)
    (cl : List String) (data : List Obs) (ind : String) (y0 y1 : Int)
    (hneg : ∀ dt cols p i, cvf dt cols p i ≤ 0) :
    optionAll (fun row => decide (row.rmse =
        -(gridSearchCV (cvf (data_train cl (data_extract data ind y0 y1))
            (cols_for_prediction cl (data_extract data ind y0 y1)))).best_score
      ∧ 0 ≤ row.rmse)) (processPair cvf fit cl data ind y0 y1) = true := by
  cases hp : processPair cvf fit cl data ind y0 y1 with
  | none => rfl
  | some row =>
    simp only [optionAll]
    rw [decide_eq_true_eq]
    obtain ⟨-, -, hrmse, -⟩ := processPair_some_fields cvf fit cl data ind y0 y1 row hp
    refine ⟨hrmse, ?_⟩
    rw [hrmse]
    have := gridSearch_best_score_nonpos
      (cvf (data_train cl (data_extract data ind y0 y1))
        (cols_for_prediction cl (data_extract data ind y0 y1)))
      (fun p i => hneg _ _ p i)
    linarith

/-- Witness for C9 on the concrete one-row table with the constant −1
scorer. -/
theorem rmse_neg_best_score_nonneg_witness :
    optionAll (fun row => decide (row.rmse =
        -(gridSearchCV (constNegScorer
            (data_train sampleCl (data_extract sampleData "325" 1964 2016))
            (cols_for_prediction sampleCl (data_extract sampleData "325" 1964 2016)))).best_score
      ∧ 0 ≤ row.rmse))
      (processPair constNegScorer constFit sampleCl sampleData "325" 1964 2016) = true :=
  rmse_neg_best_score_nonneg constNegScorer constFit sampleCl sampleData "325" 1964 2016
    (fun _ _ _ _ => by norm_num [constNegScorer])

lemma sum_residual (l : List (ℚ × ℚ)) (a b : ℚ) :
    (l.map (fun pr => pr.2 - (a + b * pr.1))).sum
      = sumY l - (l.length : ℚ) * a - b * sumX l := by
  induction l with
  | nil => simp [sumX, sumY]
  | cons x xs ih =>
    simp only [List.map_cons, List.sum_cons, sumX, sumY, List.length_cons] at ih ⊢
    push_cast
    rw [ih]
    ring

lemma sum_x_residual (l : List (ℚ × ℚ)) (a b : ℚ) :
    (l.map (fun pr => pr.1 * (pr.2 - (a + b * pr.1)))).sum
      = sumXY l - a * sumX l - b * sumXX l := by
  induction l with
  | nil => simp [sumX, sumXY, sumXX]
  | cons x xs ih =>
    simp only [List.map_cons, List.sum_cons, sumX, sumXY, sumXX, List.length_cons] at ih ⊢
    rw [ih]
    ring

lemma sse_decomp (l : List (ℚ × ℚ)) (a b a' b' : ℚ) :
    sse l a' b' = sse l a b
      + 2 * (a - a') * (l.map (fun pr => pr.2 - (a + b * pr.1))).sum
      + 2 * (b - b') * (l.map (fun pr => pr.1 * (pr.2 - (a + b * pr.1)))).sum
      + (l.map (fun pr => ((a - a') + (b - b') * pr.1)^2)).sum := by
  induction l with
  | nil => simp [sse]
  | cons x xs ih =>
    simp only [sse, List.map_cons, List.sum_cons] at ih ⊢
    rw [ih]
    ring

lemma sum_sq_zero (l : List (ℚ × ℚ)) (f : ℚ × ℚ → ℚ)
    (h : (l.map (fun pr => (f pr)^2)).sum = 0) : ∀ pr ∈ l, f pr = 0 := by
  induction l with
  | nil =>
    intro pr hpr
    cases hpr
  | cons x xs ih =>
    simp only [List.map_cons, List.sum_cons] at h
    have hx : 0 ≤ (f x)^2 := sq_nonneg _
    have hs : 0 ≤ (xs.map (fun pr => (f pr)^2)).sum := by
      apply List.sum_nonneg
      intro y hy
      obtain ⟨pr, hpr, rfl⟩ := List.mem_map.mp hy
      exact sq_nonneg _
    have hfx : (f x)^2 = 0 := by linarith
    have hxs : (xs.map (fun pr => (f pr)^2)).sum = 0 := by linarith
    intro pr hpr
    rcases List.mem_cons.mp hpr with rfl | hpr
    · exact pow_eq_zero_iff (by norm_num) |>.mp hfx
    · exact ih hxs pr hpr

lemma test_values_length : test_values.length = 51 := by
  rw [test_values, List.length_map, List.length_range]

lemma test_values_sum : test_values.sum = 0 := by
  simp [test_values, List.range_succ]
  norm_num

lemma test_values_sq_sum : (test_values.map (fun t => t * t)).sum = 221/50 := by
  simp [test_values, List.range_succ]
  norm_num

lemma roundHalfEven_intCast (n : ℤ) : roundHalfEven ((n : ℚ)) = n := by
  rw [roundHalfEven, Int.fract_intCast]
  rw [if_neg (by norm_num)]
  exact round_intCast n

lemma round2_mem_test_values : ∀ t ∈ test_values, round2 t = t := by
  intro t ht
  rw [test_values] at ht
  obtain ⟨k, hk, rfl⟩ := List.mem_map.mp ht
  have e : (-1/2 + (k : ℚ)/50) * 100 = ((2 * k - 50 : ℤ) : ℚ) := by
    push_cast
    ring
  rw [round2, e, roundHalfEven_intCast]
  push_cast
  ring

lemma predictionPairs_eq (model : (String → ℚ) → ℚ) (tc : String) :
    predictionPairs model tc = test_values.map (fun t => (t, model (subTest tc t))) := by
  rw [predictionPairs]
  exact List.map_congr_left (fun t ht => by rw [round2_mem_test_values t ht])

lemma predictionPairs_length (model : (String → ℚ) → ℚ) (tc : String) :
    (predictionPairs model tc).length = 51 := by
  rw [predictionPairs_eq]
  rw [List.length_map]
  exact test_values_length

lemma sumX_pairs (model : (String → ℚ) → ℚ) (tc : String) :
    sumX (predictionPairs model tc) = 0 := by
  rw [sumX, predictionPairs_eq, List.map_map]
  have e : (Prod.fst ∘ fun t => ((t : ℚ), model (subTest tc t))) = fun t => t := rfl
  rw [e, List.map_id']
  exact test_values_sum

lemma sumXX_pairs (model : (String → ℚ) → ℚ) (tc : String) :
    sumXX (predictionPairs model tc) = 221/50 := by
  rw [sumXX, predictionPairs_eq, List.map_map]
  have e : ((fun pr => pr.1 * pr.1) ∘ fun t => ((t : ℚ), model (subTest tc t)))
      = fun t => t * t := rfl
  rw [e]
  exact test_values_sq_sum

lemma ols_residual_sums (l : List (ℚ × ℚ)) (hn : (l.length : ℚ) ≠ 0)
    (hD : (l.length : ℚ) * sumXX l - sumX l * sumX l ≠ 0) :
    (l.map (fun pr => pr.2 - (olsIntercept l + olsSlope l * pr.1))).sum = 0 ∧
    (l.map (fun pr => pr.1 * (pr.2 - (olsIntercept l + olsSlope l * pr.1)))).sum = 0 := by
  constructor
  · rw [sum_residual, olsIntercept]
    field_simp
  · rw [sum_x_residual, olsIntercept, olsSlope]
    field_simp
    ring

lemma ols_fit_of (l : List (ℚ × ℚ)) (hn : (l.length : ℚ) ≠ 0)
    (hD : (l.length : ℚ) * sumXX l - sumX l * sumX l ≠ 0) :
    IsOLSFit l (olsIntercept l) (olsSlope l) := by
  intro a' b'
  have hd := sse_decomp l (olsIntercept l) (olsSlope l) a' b'
  obtain ⟨h1, h2⟩ := ols_residual_sums l hn hD
  rw [h1, h2, mul_zero, mul_zero, add_zero, add_zero] at hd
  have hsq : 0 ≤ (l.map (fun pr =>
      ((olsIntercept l - a') + (olsSlope l - b') * pr.1)^2)).sum := by
    apply List.sum_nonneg
    intro y hy
    obtain ⟨pr, hpr, rfl⟩ := List.mem_map.mp hy
    exact sq_nonneg _
  linarith

lemma ols_slope_unique (l : List (ℚ × ℚ)) (hn : (l.length : ℚ) ≠ 0)
    (hD : (l.length : ℚ) * sumXX l - sumX l * sumX l ≠ 0)
    (x1 y1 x2 y2 : ℚ) (hm1 : (x1, y1) ∈ l) (hm2 : (x2, y2) ∈ l) (hx : x1 ≠ x2)
    (a b : ℚ) (hab : IsOLSFit l a b) : b = olsSlope l := by
  have hopt := ols_fit_of l hn hD
  have heq : sse l a b = sse l (olsIntercept l) (olsSlope l) :=
    le_antisymm (hab (olsIntercept l) (olsSlope l)) (hopt a b)
  have hd := sse_decomp l (olsIntercept l) (olsSlope l) a b
  obtain ⟨h1, h2⟩ := ols_residual_sums l hn hD
  rw [h1, h2, mul_zero, mul_zero, add_zero, add_zero] at hd
  have hzero : (l.map (fun pr =>
      ((olsIntercept l - a) + (olsSlope l - b) * pr.1)^2)).sum = 0 := by
    linarith
  have hall := sum_sq_zero l (fun pr => (olsIntercept l - a) + (olsSlope l - b) * pr.1) hzero
  have e1 := hall (x1, y1) hm1
  have e2 := hall (x2, y2) hm2
  simp only [] at e1 e2
  have h3 : (olsSlope l - b) * (x1 - x2) = 0 := by
    linear_combination e1 - e2
  rcases mul_eq_zero.mp h3 with h4 | h4
  · linarith
  · exact absurd (sub_eq_zero.mp h4) hx

/-- C3: for every trained model and tested predictor, the recorded pairs are
exactly (grid value, prediction at the all-zero vector perturbed only in the
tested predictor), over the 51-value grid (on which two-decimal rounding is
the identity), and the stored sensitivity coefficient is the slope of the
(unique) least-squares affine fit with intercept of prediction on grid
value. -/
theorem sensitivity_is_ols_slope (model : (String → ℚ) → ℚ) (tc : String) :
    predictionPairs model tc = test_values.map (fun t => (t, model (subTest tc t))) ∧
    test_values.length = 51 ∧
    IsOLSFit (predictionPairs model tc)
      (olsIntercept (predictionPairs model tc)) (sensitivityCoefficient model tc) ∧
    ∀ a b, IsOLSFit (predictionPairs model tc) a b →
      b = sensitivityCoefficient model tc := by
  have hn : (((predictionPairs model tc).length : ℚ)) ≠ 0 := by
    rw [predictionPairs_length]
    norm_num
  have hD : ((predictionPairs model tc).length : ℚ) * sumXX (predictionPairs model tc)
      - sumX (predictionPairs model tc) * sumX (predictionPairs model tc) ≠ 0 := by
    rw [predictionPairs_length, sumXX_pairs, sumX_pairs]
    norm_num
  refine ⟨predictionPairs_eq model tc, test_values_length, ols_fit_of _ hn hD, ?_⟩
  intro a b hab
  have hml : ((-1/2 : ℚ)) ∈ test_values := by
    rw [test_values]
    refine List.mem_map.mpr ⟨0, ?_, ?_⟩
    · exact List.mem_range.mpr (by norm_num)
    · norm_num
  have hmr : ((1/2 : ℚ)) ∈ test_values := by
    rw [test_values]
    refine List.mem_map.mpr ⟨50, ?_, ?_⟩
    · exact List.mem_range.mpr (by norm_num)
    · norm_num
  have h1 : ((-1/2 : ℚ), model (subTest tc (-1/2))) ∈ predictionPairs model tc := by
    rw [predictionPairs_eq]
    exact List.mem_map_of_mem _ hml
  have h2 : ((1/2 : ℚ), model (subTest tc (1/2))) ∈ predictionPairs model tc := by
    rw [predictionPairs_eq]
    exact List.mem_map_of_mem _ hmr
  exact ols_slope_unique _ hn hD _ _ _ _ h1 h2 (by norm_num) a b hab

/-- Witness for C3: for the constant-zero model and predictor `325`, the
least-squares pair beats the concrete affine competitor (1, 2). -/
theorem sensitivity_is_ols_slope_witness :
    sse (predictionPairs (fun _ => 0) "325")
        (olsIntercept (predictionPairs (fun _ => 0) "325"))
        (sensitivityCoefficient (fun _ => 0) "325")
      ≤ sse (predictionPairs (fun _ => 0) "325") 1 2 :=
  (sensitivity_is_ols_slope (fun _ => 0) "325").2.2.1 1 2

lemma mem_coefficient_results
    (cvf : List Obs → List String → XGBParams → Fin numFolds → ℚ)
    (fit : XGBParams → List Obs → List String → (String → ℚ) → ℚ)
    (cl : List String) (data : List Obs) (row : ResultRow) :
    row ∈ coefficient_results cvf fit cl data ↔
      ∃ ind ∈ (industries cl).filter (fun i => i != focus_commodity),
        ∃ yr ∈ year_ranges,
          processPair cvf fit cl data ind yr.1 yr.2 = some row := by
  rw [coefficient_results]
  simp only [List.mem_flatMap, List.mem_filterMap]

lemma hasNegOne_false_iff (e : List Obs) (c : String) :
    hasNegOne e c = false ↔ ∀ r ∈ e, r.val c ≠ -1 := by
  rw [hasNegOne]
  constructor
  · intro h r hr hv
    have ha : e.any (fun r => decide (r.val c = -1)) = true :=
      List.any_eq_true.mpr ⟨r, hr, decide_eq_true hv⟩
    rw [ha] at h
    cases h
  · intro h
    cases hh : e.any (fun r => decide (r.val c = -1)) with
    | false => rfl
    | true =>
      obtain ⟨r, hr, hd⟩ := List.any_eq_true.mp hh
      exact absurd (of_decide_eq_true hd) (h r hr)

lemma mem_cols_for_prediction (cl : List String) (e : List Obs) (c : String) :
    c ∈ cols_for_prediction cl e ↔
      (c ∈ cl ∧ (∀ r ∈ e, r.val c ≠ -1) ∧ c ≠ focus_commodity) := by
  rw [cols_for_prediction]
  constructor
  · intro h
    have hout := List.mem_filter.mp h
    have hin := List.mem_filter.mp hout.1
    refine ⟨hin.1, ?_, bne_iff_ne.mp hout.2⟩
    have hfalse : hasNegOne e c = false := by
      cases hh : hasNegOne e c with
      | false => rfl
      | true =>
        have := hin.2
        rw [hh] at this
        cases this
    exact (hasNegOne_false_iff e c).mp hfalse
  · intro ⟨hcl, hno, hf⟩
    refine List.mem_filter.mpr ⟨List.mem_filter.mpr ⟨hcl, ?_⟩, bne_iff_ne.mpr hf⟩
    rw [(hasNegOne_false_iff e c).mpr hno]
    rfl

lemma not_key_bool (s1 s2 t1 t2 : String) (h : ¬(s1 = t1 ∧ s2 = t2)) :
    (!(s1 == t1 && s2 == t2)) = true := by
  by_cases h1 : s1 = t1
  · by_cases h2 : s2 = t2
    · exact absurd ⟨h1, h2⟩ h
    · have e : (s2 == t2) = false := beq_eq_false_iff_ne.mpr h2
      rw [e, Bool.and_false, Bool.not_false]
  · have e : (s1 == t1) = false := beq_eq_false_iff_ne.mpr h1
    rw [e, Bool.false_and, Bool.not_false]

/-- C2: a pair (industry, year-range) whose extract is empty or whose
focus-commodity column carries the −1 sentinel in some row of the range is
skipped: neither the coefficient table nor the categorization table contains
a row keyed by that industry and that year-range label. -/
theorem skip_emits_no_row
    (cvf : List Obs → List String → XGBParams → Fin numFolds → ℚ)
    (fit : XGBParams → List Obs → List String → (String → ℚ) → ℚ)
    (cl : List String) (data : List Obs) (ind : String) (y0 y1 : Int)
    (hyr : (y0, y1) ∈ year_ranges)
    (hskip : (data_extract data ind y0 y1).isEmpty = true ∨
             (data_extract data ind y0 y1).any
               (fun r => decide (r.val focus_commodity = -1)) = true) :
    (coefficient_results cvf fit cl data).all
      (fun row => !(row.industry == ind && row.year == yearLabel y0 y1)) = true ∧
    (categorization_results cvf fit cl data).all
      (fun row => !(row.industry == ind && row.year == yearLabel y0 y1)) = true := by
  simp only [year_ranges, List.mem_singleton, Prod.mk.injEq] at hyr
  obtain ⟨rfl, rfl⟩ := hyr
  have key : ∀ row ∈ coefficient_results cvf fit cl data,
      ¬(row.industry = ind ∧ row.year = yearLabel 1964 2016) := by
    intro row hrow hcontra
    obtain ⟨ind', hind', yr, hyr', hpp⟩ :=
      (mem_coefficient_results cvf fit cl data row).mp hrow
    simp only [year_ranges, List.mem_singleton] at hyr'
    subst hyr'
    obtain ⟨hi, -, -, -⟩ := processPair_some_fields cvf fit cl data ind' 1964 2016 row hpp
    rw [hi] at hcontra
    obtain ⟨h1, -⟩ := hcontra
    subst h1
    have hpp2 : processPair cvf fit cl data ind' 1964 2016 = some row := hpp
    rw [processPair_skip cvf fit cl data ind' 1964 2016 hskip] at hpp2
    cases hpp2
  constructor
  · rw [List.all_eq_true]
    intro row hrow
    exact not_key_bool _ _ _ _ (key row hrow)
  · rw [List.all_eq_true]
    intro crow hcrow
    rw [categorization_results] at hcrow
    obtain ⟨row, hrow, rfl⟩ := List.mem_map.mp hcrow
    exact not_key_bool _ _ _ _ (key row hrow)

/-- Witness for C2: industry `325` carries the focus sentinel in 1964, so
the coefficient table of the concrete run has no row keyed (`325`,
`1964:2016`). -/
theorem skip_emits_no_row_witness :
    (coefficient_results constNegScorer constFit sampleCl sentinelData).all
      (fun row => !(row.industry == "325" && row.year == yearLabel 1964 2016)) = true :=
  (skip_emits_no_row constNegScorer constFit sampleCl sentinelData "325" 1964 2016
    (by decide) (Or.inr (by decide))).1

/-- C5: the usable predictors are exactly the commodity columns without any
−1 sentinel in the extract, minus the focus commodity; the training table
subtracts the row's `quantity_change` from every commodity column except
`quantity_change` itself, which stays raw, and in particular the target —
the focus-commodity column — is output-adjusted. -/
theorem feature_filter_correct (cl : List String) (data : List Obs) (ind : String)
    (y0 y1 : Int) :
    (∀ c, c ∈ cols_for_prediction cl (data_extract data ind y0 y1) ↔
        (c ∈ cl ∧ (∀ r ∈ data_extract data ind y0 y1, r.val c ≠ -1) ∧
         c ≠ focus_commodity)) ∧
    (∀ (r : Obs) (c : String), c ∈ cl → c ≠ "quantity_change" →
        (adjustRow cl r).val c = r.val c - r.val "quantity_change") ∧
    (∀ r : Obs, (adjustRow cl r).val "quantity_change" = r.val "quantity_change") ∧
    (focus_commodity ∈ cl → ∀ r : Obs,
        (adjustRow cl r).val focus_commodity
          = r.val focus_commodity - r.val "quantity_change") := by
  refine ⟨fun c => mem_cols_for_prediction cl _ c, ?_, ?_, ?_⟩
  · intro r c hcl hqc
    show (if c ∈ cl ∧ c ≠ "quantity_change"
        then r.val c - r.val "quantity_change" else r.val c) = _
    rw [if_pos ⟨hcl, hqc⟩]
  · intro r
    show (if "quantity_change" ∈ cl ∧ "quantity_change" ≠ "quantity_change"
        then r.val "quantity_change" - r.val "quantity_change"
        else r.val "quantity_change") = _
    rw [if_neg]
    rintro ⟨-, h⟩
    exact h rfl
  · intro hf r
    show (if focus_commodity ∈ cl ∧ focus_commodity ≠ "quantity_change"
        then r.val focus_commodity - r.val "quantity_change"
        else r.val focus_commodity) = _
    rw [if_pos ⟨hf, by decide⟩]

/-- Witness for C5 on the concrete table: `325` is a usable predictor, and
adjusting a row with all values 3 gives 0 in the `325` column. -/
theorem feature_filter_correct_witness :
    "325" ∈ cols_for_prediction sampleCl (data_extract sampleData "325" 1964 2016) ∧
    (adjustRow sampleCl ⟨1964, "325", fun _ => 3⟩).val "325" = 0 := by
  constructor
  · exact ((feature_filter_correct sampleCl sampleData "325" 1964 2016).1 "325").mpr
      ⟨by decide, by decide, by decide⟩
  · have h := (feature_filter_correct sampleCl sampleData "325" 1964 2016).2.1
      ⟨1964, "325", fun _ => 3⟩ "325" (by decide) (by decide)
    rw [h]
    norm_num

/-- C7 counterexample: in the concrete run the focus column `324` is not a
usable predictor, yet the emitted row's `324` cell is the number 0 — not
blank. -/
theorem unselected_cell_zero_counterexample :
    "324" ∉ cols_for_prediction sampleCl (data_extract sampleData "325" 1964 2016) ∧
    (processPair constNegScorer constFit sampleCl sampleData "325" 1964 2016).map
      (fun r => r.cell "324") = some (some 0) ∧
    some (0:ℚ) ≠ (none : Option ℚ) := by
  refine ⟨by decide, by decide, by simp⟩

/-- C7 (amended): in every emitted coefficient row, the cell of every
commodity column outside the usable-predictor set — the focus commodity's
own column included — holds the numeric row-initialization value 0 rather
than being blank. -/
theorem unselected_cells_zero
    (cvf : List Obs → List String → XGBParams → Fin numFolds → ℚ)
    (fit : XGBParams → List Obs → List String → (String → ℚ) → ℚ)
    (cl : List String) (data : List Obs) (ind : String) (y0 y1 : Int) (c : String)
    (hc : c ∉ cols_for_prediction cl (data_extract data ind y0 y1)) :
    optionAll (fun row => decide (row.cell c = some 0))
      (processPair cvf fit cl data ind y0 y1) = true := by
  cases hp : processPair cvf fit cl data ind y0 y1 with
  | none => rfl
  | some row =>
    simp only [optionAll]
    rw [decide_eq_true_eq]
    obtain ⟨-, -, -, hcell⟩ := processPair_some_fields cvf fit cl data ind y0 y1 row hp
    simp only [hcell]
    rw [if_neg hc]

/-- Witness for the amended C7: the focus column of the concrete run. -/
theorem unselected_cells_zero_witness :
    optionAll (fun row => decide (row.cell "324" = some 0))
      (processPair constNegScorer constFit sampleCl sampleData "325" 1964 2016) = true :=
  unselected_cells_zero constNegScorer constFit sampleCl sampleData "325" 1964 2016 "324"
    (by decide)

/-- C8: the industry equal to the focus commodity is skipped before any
year-range work, so no coefficient row and no categorization row ever
carries the focus commodity as its industry. -/
theorem no_focus_industry_row
    (cvf : List Obs → List String → XGBParams → Fin numFolds → ℚ)
    (fit : XGBParams → List Obs → List String → (String → ℚ) → ℚ)
    (cl : List String) (data : List Obs) :
    (coefficient_results cvf fit cl data).all
      (fun row => row.industry != focus_commodity) = true ∧
    (categorization_results cvf fit cl data).all
      (fun row => row.industry != focus_commodity) = true := by
  have key : ∀ row ∈ coefficient_results cvf fit cl data,
      row.industry ≠ focus_commodity := by
    intro row hrow
    obtain ⟨ind', hind', yr, hyr', hpp⟩ :=
      (mem_coefficient_results cvf fit cl data row).mp hrow
    have hne : ind' ≠ focus_commodity := bne_iff_ne.mp (List.mem_filter.mp hind').2
    obtain ⟨hi, -, -, -⟩ := processPair_some_fields cvf fit cl data ind' yr.1 yr.2 row hpp
    rw [hi]
    exact hne
  constructor
  · rw [List.all_eq_true]
    intro row hrow
    exact bne_iff_ne.mpr (key row hrow)
  · rw [List.all_eq_true]
    intro crow hcrow
    rw [categorization_results] at hcrow
    obtain ⟨row, hrow, rfl⟩ := List.mem_map.mp hcrow
    exact bne_iff_ne.mpr (key row hrow)

/-- C10: when `quantity_change` has no −1 sentinel in the extract it is a
usable predictor like any commodity column, the emitted row carries its
regression slope against the model refit on the full training table, and its
categorization cell carries one of the three markers. -/
theorem quantity_change_is_predictor
    (cvf : List Obs → List String → XGBParams → Fin numFolds → ℚ)
    (fit : XGBParams → List Obs → List String → (String → ℚ) → ℚ)
    (cl : List String) (data : List Obs) (ind : String) (y0 y1 : Int)
    (hq : "quantity_change" ∈ cl)
    (hs : ∀ r ∈ data_extract data ind y0 y1, r.val "quantity_change" ≠ -1)
    (hneg : ∀ dt cols p i, cvf dt cols p i ≤ 0) :
    "quantity_change" ∈ cols_for_prediction cl (data_extract data ind y0 y1) ∧
    optionAll (fun row => decide (row.cell "quantity_change" =
        some (sensitivityCoefficient
          (fit (gridSearchCV (cvf (data_train cl (data_extract data ind y0 y1))
              (cols_for_prediction cl (data_extract data ind y0 y1)))).best_params
            (data_train cl (data_extract data ind y0 y1))
            (cols_for_prediction cl (data_extract data ind y0 y1))) "quantity_change")))
      (processPair cvf fit cl data ind y0 y1) = true ∧
    optionAll (fun crow =>
        decide (crow.cell "quantity_change" = some (Cell.label complements_value) ∨
          crow.cell "quantity_change" = some (Cell.label substitutes_value) ∨
          crow.cell "quantity_change" = some (Cell.label "")))
      ((processPair cvf fit cl data ind y0 y1).map (categorizeRow cl)) = true := by
  have hmem : "quantity_change" ∈ cols_for_prediction cl (data_extract data ind y0 y1) :=
    (mem_cols_for_prediction cl _ "quantity_change").mpr ⟨hq, hs, by decide⟩
  refine ⟨hmem, ?_, ?_⟩
  · cases hp : processPair cvf fit cl data ind y0 y1 with
    | none => rfl
    | some row =>
      simp only [optionAll]
      rw [decide_eq_true_eq]
      obtain ⟨-, -, -, hcell⟩ := processPair_some_fields cvf fit cl data ind y0 y1 row hp
      simp only [hcell]
      rw [if_pos hmem]
  · cases hp : processPair cvf fit cl data ind y0 y1 with
    | none => rfl
    | some row =>
      rw [Option.map_some']
      simp only [optionAll]
      rw [decide_eq_true_eq]
      obtain ⟨-, -, hrmse, hcell⟩ := processPair_some_fields cvf fit cl data ind y0 y1 row hp
      have hcq : row.cell "quantity_change" = some (sensitivityCoefficient
          (fit (gridSearchCV (cvf (data_train cl (data_extract data ind y0 y1))
              (cols_for_prediction cl (data_extract data ind y0 y1)))).best_params
            (data_train cl (data_extract data ind y0 y1))
            (cols_for_prediction cl (data_extract data ind y0 y1))) "quantity_change") := by
        simp only [hcell]
        rw [if_pos hmem]
      have hrm : 0 ≤ row.rmse := by
        rw [hrmse]
        have hb := gridSearch_best_score_nonpos
          (cvf (data_train cl (data_extract data ind y0 y1))
            (cols_for_prediction cl (data_extract data ind y0 y1)))
          (fun p i => hneg _ _ p i)
        linarith
      have e : (categorizeRow cl row).cell "quantity_change"
          = (row.cell "quantity_change").map (fun v => categorizeCell v row.rmse) := by
        show (if "quantity_change" ∈ cl
            then (row.cell "quantity_change").map (fun v => categorizeCell v row.rmse)
            else (row.cell "quantity_change").map Cell.num)
          = (row.cell "quantity_change").map (fun v => categorizeCell v row.rmse)
        rw [if_pos hq]
      rw [e, hcq, Option.map_some']
      rcases categorizeCell_mem_of_nonneg (sensitivityCoefficient
          (fit (gridSearchCV (cvf (data_train cl (data_extract data ind y0 y1))
              (cols_for_prediction cl (data_extract data ind y0 y1)))).best_params
            (data_train cl (data_extract data ind y0 y1))
            (cols_for_prediction cl (data_extract data ind y0 y1))) "quantity_change")
          row.rmse hrm with h | h | h
      · exact Or.inl (by rw [h])
      · exact Or.inr (Or.inl (by rw [h]))
      · exact Or.inr (Or.inr (by rw [h]))

/-- Witness for C10: `quantity_change` is a usable predictor of the concrete
run. -/
theorem quantity_change_is_predictor_witness :
    "quantity_change" ∈ cols_for_prediction sampleCl
      (data_extract sampleData "325" 1964 2016) :=
  (quantity_change_is_predictor constNegScorer constFit sampleCl sampleData "325" 1964 2016
    (by decide) (by decide) (fun _ _ _ _ => by norm_num [constNegScorer])).1
